import Mathlib

/-!
Shallow embedding of the ANTLR C++ runtime lexer driver
(`runtime/Cpp/runtime/Lexer.cpp`) and proofs about its token-production
protocol.

The driver (`Lexer`) orchestrates a recognition engine
(`LexerATNSimulator`, external to the source slice), an input cursor
(`CharStream`, external) and a token factory (external).  We embed the
driver state as an explicit record and the engine `match` as an
oracle function that may advance the cursor, update the engine
line/column tracking and (through lexer actions) update the fields of
the driver that actions can reach (`_type`, `_channel`, `_mode`,
`_modeStack`, `_text`, `_token`); it cannot reach the private start
fields, the EOF latch, the mark counters or the listener log, exactly as
in the C++ code.  Wide strings (`std::wstring`) are embedded as lists of
character codes (`List Int`), the end-of-input sentinel being -1.
-/

namespace AntlrLexer

/-- `IntStream::EOF` / `Token::EOF`: the end-of-input sentinel, -1. -/
def EOFv : Int := -1

/-- `Token::INVALID_TYPE`. -/
def INVALID_TYPE : Int := 0

/-- `Lexer::SKIP` sentinel type. -/
def SKIPt : Int := -3

/-- `Lexer::MORE` sentinel type. -/
def MOREt : Int := -2

/-- `Token::DEFAULT_CHANNEL`. -/
def DEFAULT_CHANNEL : Int := 0

/-- `Lexer::DEFAULT_MODE`. -/
def DEFAULT_MODE : Int := 0

/-- A token as produced by the token factory
`create(pair, type, text, channel, start, stop, line, col)`; the
source-pair identity is elided (it is the same driver/stream pair for
every token of one run). -/
structure Token where
  ttype : Int
  text : List Int
  channel : Int
  startIndex : Int
  stopIndex : Int
  line : Int
  col : Int
deriving Repr, DecidableEq

/-- The C++ exceptions that can cross the `nextToken()` boundary.
`LexerNoViableAltException` is deliberately not a constructor: it is
caught inside `nextToken()` and never escapes, mirroring the `catch`
clause at Lexer.cpp:109. -/
inductive LexErr where
  | illegalState
  | emptyStack
  | otherErr (code : Nat)
deriving Repr, DecidableEq

/-- The mutable state of the driver, together with the state of its two
external collaborators that the claims observe: the input cursor
(`input`/`index`, plus instrumentation counters for `mark`/`release`)
and the position tracking of the engine (`simLine`/`simCol`).
`notifications` is the ordered log of listener `syntaxError` messages. -/
structure LexerState where
  input : Option (List Int)
  index : Nat
  markCount : Nat
  releaseCount : Nat
  notifications : List (List Int)
  simLine : Nat
  simCol : Nat
  token : Option Token
  tokenStartCharIndex : Int
  tokenStartCharPositionInLine : Int
  tokenStartLine : Int
  hitEOF : Bool
  channel : Int
  type : Int
  mode : Int
  modeStack : List Int
  text : List Int
deriving Repr, DecidableEq

/-- A wide string literal as a list of character codes. -/
def wstr (s : String) : List Int :=
  s.data.map (fun c => (c.toNat : Int))

/-- `input->LA(1)` at position `i` of stream `inp`: the character code
there, or the EOF sentinel past the end. -/
def LAat (inp : Option (List Int)) (i : Nat) : Int :=
  (((inp.getD []).get? i).getD EOFv)

/-- `input->LA(1)` for the current cursor. -/
def LA1 (st : LexerState) : Int :=
  LAat st.input st.index

/-- `input->getText(Interval(a, b))`: the characters at positions
`a..b` inclusive, clamped to the stream. -/
def sliceIncl (l : List Int) (a b : Int) : List Int :=
  if a < 0 ∨ b < a then []
  else (l.drop a.toNat).take (b - a + 1).toNat

/-- `Lexer::getErrorDisplay(int c)` (Lexer.cpp:298): newline, tab and
carriage return render as two-character escapes, the EOF sentinel as
`<EOF>`, and every other code as its decimal rendering
(`std::to_wstring(c)`). -/
def getErrorDisplayChar (c : Int) : List Int :=
  if c = EOFv then wstr "<EOF>"
  else if c = 10 then wstr "\\n"
  else if c = 9 then wstr "\\t"
  else if c = 13 then wstr "\\r"
  else wstr (toString c)

/-- Byte `i` of the `wchar_t` buffer of `s`, as the (signed) `char`
read by `((char*)s.c_str())[i]` in `Lexer::getErrorDisplay(wstring)`:
4-byte little-endian wide characters, `char` signed. -/
def wcharByte (s : List Int) (i : Nat) : Int :=
  let b := (((s.get? (i / 4)).getD 0).toNat >>> (8 * (i % 4))) % 256
  if 128 ≤ b then (b : Int) - 256 else (b : Int)

/-- `Lexer::getErrorDisplay(const wstring&)` (Lexer.cpp:289): iterates
`i` over the character count of `s` but reads byte `i` of the
reinterpreted buffer, rendering each byte through the per-character
display. -/
def getErrorDisplayString (s : List Int) : List Int :=
  ((List.range s.length).map (fun i => getErrorDisplayChar (wcharByte s i))).flatten

/-- Modelled from the spec: `LexerATNSimulator::consume(input)` is not
in the source slice; per the spec the Recognition Engine "tracks current
line/column over the cursor" and recovery "forces it to consume exactly
one character", so consuming advances the cursor one character and
updates line/column (newline starts a new line at column 0). -/
def simConsume (st : LexerState) : LexerState :=
  if LA1 st = 10 then
    { st with simLine := st.simLine + 1, simCol := 0, index := st.index + 1 }
  else
    { st with simCol := st.simCol + 1, index := st.index + 1 }

/-- `Lexer::notifyListeners` (Lexer.cpp:281): renders the cursor span
from `_tokenStartCharIndex` to the current index inclusive and appends
one `syntaxError` dispatch to the listener log. -/
def notifyListeners (st : LexerState) : LexerState :=
  let textSpan := sliceIncl (st.input.getD []) st.tokenStartCharIndex (Int.ofNat st.index)
  let msg := wstr "token recognition error at: \x27" ++
    getErrorDisplayString textSpan ++ wstr "\x27"
  { st with notifications := st.notifications ++ [msg] }

/-- `Lexer::recover(LexerNoViableAltException)` (Lexer.cpp:274): skip a
character and try again, unless the cursor already sits at end-of-input. -/
def recover (st : LexerState) : LexerState :=
  if LA1 st ≠ EOFv then simConsume st else st

/-- `Lexer::mode(int m)`. -/
def mode (st : LexerState) (m : Int) : LexerState :=
  { st with mode := m }

/-- `Lexer::pushMode(int m)`: save the current mode, then switch. -/
def pushMode (st : LexerState) (m : Int) : LexerState :=
  mode { st with modeStack := st.modeStack ++ [st.mode] } m

/-- `Lexer::popMode()`: `EmptyStackException` on an empty stack,
otherwise restore the saved mode, drop it from the stack and return the
restored mode. -/
def popMode (st : LexerState) : Except LexErr (Int × LexerState) :=
  match st.modeStack.getLast? with
  | none => .error .emptyStack
  | some m =>
    let st2 := mode st m
    let st3 := { st2 with modeStack := st2.modeStack.dropLast }
    .ok (st3.mode, st3)

/-- `Lexer::reset()` (Lexer.cpp:55): rewind the cursor when present,
discard the pending token, reset the per-token fields and the mode
machinery, clear the EOF latch, and reset the position
tracking of the engine.  `LexerATNSimulator::reset()` is not in the
source slice; modelled from the spec (the driver must trigger the reset
of the line/column tracking owned by the Recognition Engine) as line 1,
column 0. -/
def reset (st : LexerState) : LexerState :=
  let st1 :=
    match st.input with
    | some _ => { st with index := 0 }
    | none => st
  { st1 with
    token := none
    type := INVALID_TYPE
    channel := DEFAULT_CHANNEL
    tokenStartCharIndex := -1
    tokenStartCharPositionInLine := -1
    tokenStartLine := -1
    text := []
    hitEOF := false
    mode := DEFAULT_MODE
    modeStack := []
    simLine := 1
    simCol := 0 }

/-- `Lexer::emit()` (Lexer.cpp:189): build a token from the captured
start fields, the current cursor index minus one as the stop index, and
the pending type/channel/text, and install it as current. -/
def emit (st : LexerState) : Token × LexerState :=
  let t : Token :=
    { ttype := st.type
      text := st.text
      channel := st.channel
      startIndex := st.tokenStartCharIndex
      stopIndex := Int.ofNat st.index - 1
      line := st.tokenStartLine
      col := st.tokenStartCharPositionInLine }
  (t, { st with token := some t })

/-- The token built by `Lexer::emitEOF()` (Lexer.cpp:195): empty span at
the cursor index, engine line, default channel, and the asymmetric
column rule — after the previous token when one exists, else the
current engine column. -/
def eofTok (st : LexerState) : Token :=
  let cpos : Int :=
    match st.token with
    | some t => t.col + (t.stopIndex - t.startIndex + 1)
    | none => Int.ofNat st.simCol
  { ttype := EOFv
    text := []
    channel := DEFAULT_CHANNEL
    startIndex := Int.ofNat st.index
    stopIndex := Int.ofNat st.index - 1
    line := Int.ofNat st.simLine
    col := cpos }

/-- `Lexer::emitEOF()`: build the EOF token and install it as current. -/
def emitEOF (st : LexerState) : Token × LexerState :=
  (eofTok st, { st with token := some (eofTok st) })

/-- `Lexer::getText()` (Lexer.cpp:229): the explicit override when it is
non-empty, otherwise the engine-computed text over the cursor span. -/
def setText (st : LexerState) (t : List Int) : LexerState :=
  { st with text := t }

/-- Modelled from the spec: `LexerATNSimulator::getText(input)` is not
in the source slice; per the spec it is "exactly the cursor span from
`startCharIndex` to current cursor index at emission time" (the
character before the cursor being the last one of the token). -/
def interpGetText (st : LexerState) : List Int :=
  sliceIncl (st.input.getD []) st.tokenStartCharIndex (Int.ofNat st.index - 1)

/-- `Lexer::getText()`. -/
def getText (st : LexerState) : List Int :=
  if st.text ≠ [] then st.text else interpGetText st

/-- The cursor position and engine line/column tracking after a call
into the engine (the engine consumes characters as it matches). -/
structure PosEff where
  index : Nat
  line : Nat
  col : Nat
deriving Repr, DecidableEq

/-- The full effect of a successful `match`: cursor/position movement
plus the driver fields that embedded lexer actions may have set through
the public driver mutators (`setType`, `setChannel`, `mode`,
`pushMode`/`popMode`, `setText`, `emit`). -/
structure ActEff where
  pos : PosEff
  type : Int
  channel : Int
  mode : Int
  modeStack : List Int
  text : List Int
  token : Option Token
deriving Repr, DecidableEq

/-- Outcome of `LexerATNSimulator::match(input, mode)`: a token type
(possibly `SKIP`/`MORE` set by an action), a `LexerNoViableAltException`
(no actions ran, only the cursor/position moved), or some other
exception propagating out of an action (e.g. `EmptyStackException`). -/
inductive MatchOut where
  | ok (ttype : Int) (eff : ActEff)
  | noViable (p : PosEff)
  | raise (e : LexErr) (p : PosEff)
deriving Repr, DecidableEq

/-- The Recognition Engine as an oracle: given the driver/stream state
(including the current mode) it decides the outcome of `match`. -/
def Matcher : Type := LexerState → MatchOut

/-- Apply the position-only effect of a failed `match`. -/
def applyPos (st : LexerState) (p : PosEff) : LexerState :=
  { st with index := p.index, simLine := p.line, simCol := p.col }

/-- Apply the effect of a successful `match`, actions included. -/
def applyAct (st : LexerState) (e : ActEff) : LexerState :=
  { st with
    index := e.pos.index, simLine := e.pos.line, simCol := e.pos.col
    type := e.type, channel := e.channel, mode := e.mode
    modeStack := e.modeStack, text := e.text, token := e.token }

/-- Line 114 of Lexer.cpp: latch `_hitEOF` when the next character is
the end-of-input sentinel. -/
def latchEOF (st : LexerState) : LexerState :=
  if LA1 st = EOFv then { st with hitEOF := true } else st

/-- Lines 117-119 of Lexer.cpp: adopt the `match` outcome as `_type`
only when no action already decided it. -/
def adoptType (st : LexerState) (ttype : Int) : LexerState :=
  if st.type = INVALID_TYPE then { st with type := ttype } else st

/-- How one pass of the inner `do {...} while (_type == MORE)` loop of
`nextToken()` ends: fall through (emit and return), `goto
outerContinue` on `SKIP`, or an exception unwinding out. -/
inductive InnerRes where
  | done
  | restart
  | thrown (e : LexErr)
deriving Repr, DecidableEq

/-- The inner accumulation loop of `nextToken()` (Lexer.cpp:104-123),
fuel-indexed: set `_type := INVALID`, call `match`, on
`LexerNoViableAltException` notify listeners, recover and treat the
outcome as `SKIP`; latch EOF, adopt the type, then dispatch on
`SKIP`/`MORE`. -/
def innerLoop (m : Matcher) : Nat → LexerState → Option (InnerRes × LexerState)
  | 0, _ => none
  | fuel+1, st0 =>
    let st1 := { st0 with type := INVALID_TYPE }
    match m st1 with
    | .raise e p => some (.thrown e, applyPos st1 p)
    | .noViable p =>
      let st2 := adoptType (latchEOF (recover (notifyListeners (applyPos st1 p)))) SKIPt
      if st2.type = SKIPt then some (.restart, st2)
      else if st2.type = MOREt then innerLoop m fuel st2
      else some (.done, st2)
    | .ok ttype eff =>
      let st2 := adoptType (latchEOF (applyAct st1 eff)) ttype
      if st2.type = SKIPt then some (.restart, st2)
      else if st2.type = MOREt then innerLoop m fuel st2
      else some (.done, st2)

/-- The outer `while (true)` loop of `nextToken()` (Lexer.cpp:90-128),
fuel-indexed: on the EOF latch emit the EOF token; else reset the
per-candidate state, run the inner loop, and on fall-through emit when
no action already did. -/
def outerLoop (m : Matcher) : Nat → LexerState → Option (Except LexErr Token × LexerState)
  | 0, _ => none
  | fuel+1, st =>
    if st.hitEOF then
      let p := emitEOF st
      some (.ok p.1, p.2)
    else
      let st1 := { st with
        token := none
        channel := DEFAULT_CHANNEL
        tokenStartCharIndex := Int.ofNat st.index
        tokenStartCharPositionInLine := Int.ofNat st.simCol
        tokenStartLine := Int.ofNat st.simLine
        text := [] }
      match innerLoop m fuel st1 with
      | none => none
      | some (.thrown e, st2) => some (.error e, st2)
      | some (.restart, st2) => outerLoop m fuel st2
      | some (.done, st2) =>
        match st2.token with
        | none =>
          let p := emit st2
          some (.ok p.1, p.2)
        | some t => some (.ok t, st2)

/-- `Lexer::nextToken()` (Lexer.cpp:75): `IllegalStateException`
without an input stream; otherwise take one mark on the cursor, run the
loop, and release the mark on every exit path (the `finally` at
Lexer.cpp:84), exceptions included.  `none` means the fuel ran out
(the loop has not terminated yet). -/
def nextToken (m : Matcher) (fuel : Nat) (st : LexerState) :
    Option (Except LexErr Token × LexerState) :=
  match st.input with
  | none => some (.error .illegalState, st)
  | some _ =>
    let stm := { st with markCount := st.markCount + 1 }
    match outerLoop m fuel stm with
    | none => none
    | some (res, st') => some (res, { st' with releaseCount := st'.releaseCount + 1 })

/-- The results of `n` successive successful `nextToken()` calls, each
with `fc` fuel. -/
def nextTokens (m : Matcher) (fc : Nat) : Nat → LexerState → Option (List Token × LexerState)
  | 0, st => some ([], st)
  | n+1, st =>
    match nextToken m fc st with
    | some (.ok t, st') =>
      match nextTokens m fc n st' with
      | some (ts, st'') => some (t :: ts, st'')
      | none => none
    | _ => none

/-- `Lexer::getAllTokens()` (Lexer.cpp:264), fuel-indexed on the number
of `nextToken()` calls: collect tokens in production order until the
first EOF-typed token, exclusive; exceptions propagate. -/
def getAllTokens (m : Matcher) (fc : Nat) :
    Nat → LexerState → Option (Except LexErr (List Token) × LexerState)
  | 0, _ => none
  | k+1, st =>
    match nextToken m fc st with
    | none => none
    | some (.error e, st') => some (.error e, st')
    | some (.ok t, st') =>
      if t.ttype = EOFv then some (.ok [], st')
      else
        match getAllTokens m fc k st' with
        | none => none
        | some (.error e, st'') => some (.error e, st'')
        | some (.ok ts, st'') => some (.ok (t :: ts), st'')

/-- The state produced by one `nextToken()` call on a latched-EOF
state: the EOF token is installed as current and the cursor was marked
and released once. -/
def postEOF (st : LexerState) : LexerState :=
  { st with
    token := some (eofTok st)
    markCount := st.markCount + 1
    releaseCount := st.releaseCount + 1 }

/-! ### Concrete fixtures used by the witnesses -/

/-- A freshly reset lexer over the two-character input "ab". -/
def stW : LexerState :=
  { input := some [97, 98], index := 0, markCount := 0, releaseCount := 0,
    notifications := [], simLine := 1, simCol := 0, token := none,
    tokenStartCharIndex := -1, tokenStartCharPositionInLine := -1,
    tokenStartLine := -1, hitEOF := false, channel := 0, type := 0,
    mode := 0, modeStack := [], text := [] }

/-- An engine that matches exactly one character as token type 10 and
runs no actions; at end-of-input it has no viable alternative. -/
def mNorm : Matcher := fun st =>
  if LA1 st = EOFv then
    .noViable ⟨st.index, st.simLine, st.simCol⟩
  else
    .ok 10 ⟨⟨st.index + 1, st.simLine, st.simCol + 1⟩, INVALID_TYPE,
      st.channel, st.mode, st.modeStack, st.text, st.token⟩

/-- An engine that always fails with no viable alternative after
looking at (but not keeping) one character. -/
def mFail : Matcher := fun st =>
  .noViable ⟨st.index, st.simLine, st.simCol⟩

/-- An engine whose action raises an exception that must propagate out
of `nextToken()` (e.g. a `popMode` on an empty stack). -/
def mErr : Matcher := fun st =>
  .raise .emptyStack ⟨st.index, st.simLine, st.simCol⟩

/-- An engine whose first increment runs a `more()` action (consuming
one character) and whose second increment accepts one more character as
token type 7: a two-step `MORE` accumulation chain. -/
def mMore : Matcher := fun st =>
  if st.index = 0 then
    .ok MOREt ⟨⟨st.index + 1, st.simLine, st.simCol + 1⟩, MOREt,
      st.channel, st.mode, st.modeStack, st.text, st.token⟩
  else
    .ok 7 ⟨⟨st.index + 1, st.simLine, st.simCol + 1⟩, INVALID_TYPE,
      st.channel, st.mode, st.modeStack, st.text, st.token⟩

/-- A sample previously-emitted token spanning columns 4-6 (length 3). -/
def tokPrev : Token :=
  { ttype := 10, text := [], channel := 0, startIndex := 4, stopIndex := 6,
    line := 1, col := 4 }

/-- A state at cursor index 2 whose current token is `tokPrev` and
whose active channel is not the default. -/
def stPrev : LexerState :=
  { stW with
      index := 2
      simLine := 1
      simCol := 9
      channel := 5
      token := some tokPrev }

/-- A state at cursor index 2 with no current token. -/
def stNoPrev : LexerState :=
  { stW with
      index := 2
      simLine := 1
      simCol := 9 }

/-- A thoroughly dirtied lexer state, for the `reset` witness. -/
def stDirty : LexerState :=
  { stW with
      index := 2
      token := some tokPrev
      type := 10
      channel := 2
      tokenStartCharIndex := 1
      tokenStartCharPositionInLine := 1
      tokenStartLine := 4
      text := [97]
      hitEOF := true
      mode := 6
      modeStack := [0, 3]
      simLine := 4
      simCol := 1 }

/-- `stW` with the span fields of a one-character token in progress. -/
def stSpan : LexerState :=
  { stW with
      tokenStartCharIndex := 0
      index := 1 }

/-- A latched-EOF state over "ab" whose current token is `tokPrev`. -/
def stLatched : LexerState :=
  { stW with
      index := 2
      simCol := 2
      hitEOF := true
      token := some tokPrev }

/-- The first token `mNorm` produces over "ab". -/
def tokA : Token :=
  { ttype := 10, text := [], channel := 0, startIndex := 0, stopIndex := 0,
    line := 1, col := 0 }

/-- The second token `mNorm` produces over "ab". -/
def tokB : Token :=
  { ttype := 10, text := [], channel := 0, startIndex := 1, stopIndex := 1,
    line := 1, col := 1 }

/-- The end-of-input token `mNorm` reaches after "ab": empty span at
index 2, column after `tokB`. -/
def tokEofW : Token :=
  { ttype := EOFv, text := [], channel := 0, startIndex := 2, stopIndex := 1,
    line := 1, col := 2 }

/-- `stW` as it stands at the entry of the inner loop: per-candidate
state reset and start fields captured from cursor index 0, line 1,
column 0. -/
def stCand : LexerState :=
  { stW with
      token := none
      channel := DEFAULT_CHANNEL
      tokenStartCharIndex := 0
      tokenStartCharPositionInLine := 0
      tokenStartLine := 1
      text := [] }

/-- The fields of the driver that neither the engine nor the inner
loop can reach: the mark/release instrumentation, the captured start
fields and the input characters. -/
def candFrame (st : LexerState) : Nat × Nat × Int × Int × Int × Option (List Int) :=
  (st.markCount, st.releaseCount, st.tokenStartCharIndex,
   st.tokenStartCharPositionInLine, st.tokenStartLine, st.input)

/-! ### Theorems -/

theorem candFrame_simConsume (st : LexerState) :
    candFrame (simConsume st) = candFrame st := by
  unfold simConsume
  split <;> rfl

theorem candFrame_recover (st : LexerState) :
    candFrame (recover st) = candFrame st := by
  unfold recover
  split
  · exact candFrame_simConsume st
  · rfl

theorem candFrame_latchEOF (st : LexerState) :
    candFrame (latchEOF st) = candFrame st := by
  unfold latchEOF
  split <;> rfl

theorem candFrame_adoptType (st : LexerState) (t : Int) :
    candFrame (adoptType st t) = candFrame st := by
  unfold adoptType
  split <;> rfl

/-- No iteration of the inner accumulation loop moves the mark
counters, the captured start fields or the input characters. -/
theorem innerLoop_frame (m : Matcher) :
    ∀ fuel st r st', innerLoop m fuel st = some (r, st') →
      candFrame st' = candFrame st := by
  intro fuel
  induction fuel with
  | zero =>
    intro st r st' h
    simp [innerLoop] at h
  | succ n ih =>
    intro st r st' h
    simp only [innerLoop] at h
    split at h
    · cases h
      rfl
    · split at h
      · cases h
        rw [candFrame_adoptType, candFrame_latchEOF, candFrame_recover]
        rfl
      · split at h
        · rw [ih _ _ _ h, candFrame_adoptType, candFrame_latchEOF, candFrame_recover]
          rfl
        · cases h
          rw [candFrame_adoptType, candFrame_latchEOF, candFrame_recover]
          rfl
    · split at h
      · cases h
        rw [candFrame_adoptType, candFrame_latchEOF]
        rfl
      · split at h
        · rw [ih _ _ _ h, candFrame_adoptType, candFrame_latchEOF]
          rfl
        · cases h
          rw [candFrame_adoptType, candFrame_latchEOF]
          rfl

/-- No iteration of the outer loop moves the mark counters or the
input characters. -/
theorem outerLoop_marks (m : Matcher) :
    ∀ fuel st r st', outerLoop m fuel st = some (r, st') →
      st'.markCount = st.markCount ∧ st'.releaseCount = st.releaseCount ∧
      st'.input = st.input := by
  intro fuel
  induction fuel with
  | zero =>
    intro st r st' h
    simp [outerLoop] at h
  | succ n ih =>
    intro st r st' h
    simp only [outerLoop] at h
    split at h
    · cases h
      exact ⟨rfl, rfl, rfl⟩
    · split at h
      · cases h
      · rename_i e st2 heq
        have hf := innerLoop_frame m n _ _ _ heq
        have h1 : st2.markCount = st.markCount := congrArg (fun p => p.1) hf
        have h2 : st2.releaseCount = st.releaseCount :=
          congrArg (fun p => p.2.1) hf
        have h3 : st2.input = st.input :=
          congrArg (fun p => p.2.2.2.2.2) hf
        cases h
        exact ⟨h1, h2, h3⟩
      · rename_i st2 heq
        have hf := innerLoop_frame m n _ _ _ heq
        have h1 : st2.markCount = st.markCount := congrArg (fun p => p.1) hf
        have h2 : st2.releaseCount = st.releaseCount :=
          congrArg (fun p => p.2.1) hf
        have h3 : st2.input = st.input :=
          congrArg (fun p => p.2.2.2.2.2) hf
        have hr := ih _ _ _ h
        exact ⟨h1 ▸ hr.1, h2 ▸ hr.2.1, h3 ▸ hr.2.2⟩
      · rename_i st2 heq
        have hf := innerLoop_frame m n _ _ _ heq
        have h1 : st2.markCount = st.markCount := congrArg (fun p => p.1) hf
        have h2 : st2.releaseCount = st.releaseCount :=
          congrArg (fun p => p.2.1) hf
        have h3 : st2.input = st.input :=
          congrArg (fun p => p.2.2.2.2.2) hf
        split at h <;> cases h <;> exact ⟨h1, h2, h3⟩

theorem recover_fields (st : LexerState) :
    (recover st).type = st.type ∧ (recover st).token = st.token ∧
    (recover st).notifications = st.notifications ∧
    (recover st).index = (if LA1 st = EOFv then st.index else st.index + 1) := by
  unfold recover simConsume
  by_cases h : LA1 st = EOFv
  · simp [h]
  · simp only [h, ne_eq, not_false_iff, if_true, ite_not]
    split <;> simp [h]

theorem latchEOF_fields (st : LexerState) :
    (latchEOF st).type = st.type ∧ (latchEOF st).token = st.token ∧
    (latchEOF st).notifications = st.notifications ∧
    (latchEOF st).index = st.index := by
  unfold latchEOF
  split <;> exact ⟨rfl, rfl, rfl, rfl⟩

theorem adoptType_fields (st : LexerState) (t : Int) :
    (adoptType st t).token = st.token ∧
    (adoptType st t).notifications = st.notifications ∧
    (adoptType st t).index = st.index ∧
    (adoptType st t).type = (if st.type = INVALID_TYPE then t else st.type) := by
  unfold adoptType
  split <;> rename_i h <;> simp [h]

/-- C1: a no-viable-alternative report from the engine is absorbed
inside `nextToken()`: the inner loop notifies the listeners exactly
once, recovery consumes exactly one character unless the cursor is
already at end-of-input, no token is installed for the candidate, and
the outcome is the `SKIP` sentinel, restarting the outer loop instead
of propagating the condition. -/
theorem noViableAlt_recovery (m : Matcher) (fuel : Nat) (st0 : LexerState)
    (p : PosEff) (hm : m { st0 with type := INVALID_TYPE } = .noViable p) :
    ∃ st2, innerLoop m (fuel+1) st0 = some (.restart, st2) ∧
      st2.notifications.length = st0.notifications.length + 1 ∧
      st2.token = st0.token ∧
      st2.type = SKIPt ∧
      st2.index = (if LAat st0.input p.index = EOFv then p.index else p.index + 1) := by
  have hN :
      (notifyListeners (applyPos { st0 with type := INVALID_TYPE } p)).type
        = INVALID_TYPE := rfl
  have hR := recover_fields (notifyListeners (applyPos { st0 with type := INVALID_TYPE } p))
  have hL := latchEOF_fields
    (recover (notifyListeners (applyPos { st0 with type := INVALID_TYPE } p)))
  have hA := adoptType_fields
    (latchEOF (recover (notifyListeners (applyPos { st0 with type := INVALID_TYPE } p)))) SKIPt
  have hty :
      (adoptType (latchEOF (recover (notifyListeners
        (applyPos { st0 with type := INVALID_TYPE } p)))) SKIPt).type = SKIPt := by
    rw [hA.2.2.2, hL.1, hR.1, hN]
    rfl
  refine ⟨_, ?_, ?_, ?_, hty, ?_⟩
  · simp only [innerLoop, hm]
    rw [if_pos hty]
  · rw [hA.2.1, hL.2.2.1, hR.2.2.1]
    simp [notifyListeners, applyPos]
  · rw [hA.1, hL.2.1, hR.2.1]
    rfl
  · rw [hA.2.2.1, hL.2.2.2, hR.2.2.2]
    rfl

/-- C1 witness: over the input "ab" an engine with no viable
alternative leads to one notification, one consumed character and a
`SKIP` restart. -/
theorem noViableAlt_recovery_witness :
    ∃ st2, innerLoop mFail 1 stCand = some (.restart, st2) ∧
      st2.notifications.length = 0 + 1 ∧
      st2.token = none ∧
      st2.type = SKIPt ∧
      st2.index = 1 := by
  obtain ⟨st2, h1, h2, h3, h4, h5⟩ :=
    noViableAlt_recovery mFail 0 stCand ⟨0, 1, 0⟩ rfl
  refine ⟨st2, h1, h2, h3, h4, ?_⟩
  rw [h5]
  rfl

/-- C4: every `nextToken()` call on a lexer with an attached input that
completes — with a token, with the EOF token, or by propagating an
exception — has taken exactly one mark on the cursor and performed
exactly one matching release. -/
theorem nextToken_mark_release (m : Matcher) (fuel : Nat) (st : LexerState)
    (cs : List Int) (res : Except LexErr Token) (st' : LexerState)
    (hin : st.input = some cs)
    (h : nextToken m fuel st = some (res, st')) :
    st'.markCount = st.markCount + 1 ∧
    st'.releaseCount = st.releaseCount + 1 := by
  simp only [nextToken, hin] at h
  split at h
  · cases h
  · rename_i res0 st0 heq
    have hm := outerLoop_marks m fuel _ _ _ heq
    cases h
    exact ⟨hm.1, by rw [hm.2.1]⟩

/-- C4 witness: the counters after a normal return over "ab", and after
an exception propagating out of an engine action. -/
theorem nextToken_mark_release_witness :
    (∃ res st', nextToken mNorm 5 stW = some (res, st') ∧
      st'.markCount = 1 ∧ st'.releaseCount = 1) ∧
    (∃ res st', nextToken mErr 5 stW = some (res, st') ∧
      res = .error .emptyStack ∧
      st'.markCount = 1 ∧ st'.releaseCount = 1) := by
  constructor
  · obtain ⟨res, st', heq⟩ :
        ∃ res st', nextToken mNorm 5 stW = some (res, st') := ⟨_, _, rfl⟩
    have hc := nextToken_mark_release mNorm 5 stW [97, 98] res st' rfl heq
    exact ⟨res, st', heq, hc.1, hc.2⟩
  · obtain ⟨res, st', heq, hres⟩ :
        ∃ res st', nextToken mErr 5 stW = some (res, st') ∧
          res = .error .emptyStack := ⟨_, _, rfl, rfl⟩
    have hc := nextToken_mark_release mErr 5 stW [97, 98] res st' rfl heq
    exact ⟨res, st', heq, hres, hc.1, hc.2⟩

/-- C5: no iteration of the inner accumulation loop (in particular no
`MORE` continuation) changes the captured `startCharIndex`,
`startLine` or `startColumn`, so the token built by the fall-through
`emit()` after a `MORE` chain carries the start position, line and
column captured for the first accumulation step. -/
theorem moreChain_keeps_start (m : Matcher) (fuel : Nat) (st : LexerState)
    (r : InnerRes) (st' : LexerState)
    (h : innerLoop m fuel st = some (r, st')) :
    st'.tokenStartCharIndex = st.tokenStartCharIndex ∧
    st'.tokenStartLine = st.tokenStartLine ∧
    st'.tokenStartCharPositionInLine = st.tokenStartCharPositionInLine ∧
    (st'.token = none →
      (emit st').1.startIndex = st.tokenStartCharIndex ∧
      (emit st').1.line = st.tokenStartLine ∧
      (emit st').1.col = st.tokenStartCharPositionInLine) := by
  have hf := innerLoop_frame m fuel st r st' h
  have h3 : st'.tokenStartCharIndex = st.tokenStartCharIndex :=
    congrArg (fun q => q.2.2.1) hf
  have h4 : st'.tokenStartCharPositionInLine = st.tokenStartCharPositionInLine :=
    congrArg (fun q => q.2.2.2.1) hf
  have h5 : st'.tokenStartLine = st.tokenStartLine :=
    congrArg (fun q => q.2.2.2.2.1) hf
  exact ⟨h3, h5, h4, fun _ => ⟨h3, h5, h4⟩⟩

/-- C5 witness: a two-step `MORE` chain over "ab" ends with the start
fields captured at the first step and a token starting there. -/
theorem moreChain_keeps_start_witness :
    ∃ st', innerLoop mMore 5 stCand = some (.done, st') ∧
      st'.tokenStartCharIndex = 0 ∧
      (emit st').1.startIndex = 0 ∧
      (emit st').1.line = 1 ∧
      (emit st').1.col = 0 := by
  have hc := moreChain_keeps_start mMore 5 stCand .done _ rfl
  exact ⟨_, rfl, hc.1, (hc.2.2.2 rfl).1, (hc.2.2.2 rfl).2.1, (hc.2.2.2 rfl).2.2⟩

/-- C2: the synthesized end-of-input token has character index equal to
the current cursor index, stop index one less (an empty span), line
equal to the current engine line, the default channel regardless of
the active channel, and column equal to the column of the previous
token plus its character length when a previous token exists, or the
current engine column otherwise. -/
theorem emitEOF_token_fields (st : LexerState) :
    (emitEOF st).1.startIndex = Int.ofNat st.index ∧
    (emitEOF st).1.stopIndex = Int.ofNat st.index - 1 ∧
    (emitEOF st).1.line = Int.ofNat st.simLine ∧
    (emitEOF st).1.channel = DEFAULT_CHANNEL ∧
    (emitEOF st).1.ttype = EOFv ∧
    (∀ t, st.token = some t →
      (emitEOF st).1.col = t.col + (t.stopIndex - t.startIndex + 1)) ∧
    (st.token = none → (emitEOF st).1.col = Int.ofNat st.simCol) := by
  unfold emitEOF eofTok
  refine ⟨rfl, rfl, rfl, rfl, rfl, ?_, ?_⟩
  · intro t ht
    simp [ht]
  · intro ht
    simp [ht]

/-- C2 witness: concrete evaluation with and without a previous token;
with a previous token spanning columns 4-6 the EOF column is 7, and the
EOF channel is the default although channel 5 was active. -/
theorem emitEOF_token_fields_witness :
    (emitEOF stPrev).1.col = 7 ∧
    (emitEOF stNoPrev).1.col = 9 ∧
    (emitEOF stPrev).1.channel = DEFAULT_CHANNEL := by
  refine ⟨?_, ?_, (emitEOF_token_fields stPrev).2.2.2.1⟩
  · have h := (emitEOF_token_fields stPrev).2.2.2.2.2.1 tokPrev rfl
    simpa [tokPrev] using h
  · have h := (emitEOF_token_fields stNoPrev).2.2.2.2.2.2 rfl
    simpa [stNoPrev, stW] using h

/-- C6: `pushMode(m)` immediately followed by `popMode()` restores the
entire prior state (current mode and stack alike) and `popMode()`
returns the restored mode; `popMode()` on an empty mode stack fails
with `EmptyStack`. -/
theorem pushMode_popMode_inverse (st : LexerState) (m : Int) :
    popMode (pushMode st m) = .ok (st.mode, st) ∧
    (st.modeStack = [] → popMode st = .error .emptyStack) := by
  constructor
  · unfold popMode pushMode mode
    simp
  · intro h
    unfold popMode
    simp [h]

/-- C6 witness: a stack of depth two, and the empty-stack failure. -/
theorem pushMode_popMode_inverse_witness :
    popMode (pushMode stDirty 9) = .ok (6, stDirty) ∧
    popMode stW = .error .emptyStack := by
  exact ⟨(pushMode_popMode_inverse stDirty 9).1, (pushMode_popMode_inverse stW 0).2 rfl⟩

/-- C7: after `reset()` the cursor (when attached) is rewound to index
0, the current token is discarded, type is the invalid sentinel,
channel is the default, the three start fields are the unset sentinel,
the accumulated text is empty, the EOF latch is cleared, the mode is
the default with an empty mode stack, and the engine line/column
tracking is back at its initial position. -/
theorem reset_state (st : LexerState) :
    (st.input.isSome → (reset st).index = 0) ∧
    (reset st).token = none ∧
    (reset st).type = INVALID_TYPE ∧
    (reset st).channel = DEFAULT_CHANNEL ∧
    (reset st).tokenStartCharIndex = -1 ∧
    (reset st).tokenStartCharPositionInLine = -1 ∧
    (reset st).tokenStartLine = -1 ∧
    (reset st).text = [] ∧
    (reset st).hitEOF = false ∧
    (reset st).mode = DEFAULT_MODE ∧
    (reset st).modeStack = [] ∧
    (reset st).simLine = 1 ∧ (reset st).simCol = 0 := by
  unfold reset
  cases h : st.input <;> simp [h]

/-- C7 witness: resetting a thoroughly dirtied lexer state rewinds the
cursor and clears the latch and the mode machinery. -/
theorem reset_state_witness :
    (reset stDirty).index = 0 ∧ (reset stDirty).hitEOF = false ∧
    (reset stDirty).modeStack = [] := by
  have h := reset_state stDirty
  exact ⟨h.1 rfl, h.2.2.2.2.2.2.2.2.1, h.2.2.2.2.2.2.2.2.2.2.1⟩

/-- C9: in the error-display rendering, newline, tab and carriage
return become the two-character escapes `\n`, `\t`, `\r`, the
end-of-input sentinel becomes `<EOF>`, and every other character code
is rendered as its decimal string — in particular, a printable
character never appears literally as itself. -/
theorem errorDisplay_rendering (c : Int) :
    getErrorDisplayChar 10 = wstr "\\n" ∧
    getErrorDisplayChar 9 = wstr "\\t" ∧
    getErrorDisplayChar 13 = wstr "\\r" ∧
    getErrorDisplayChar EOFv = wstr "<EOF>" ∧
    (c ≠ EOFv → c ≠ 10 → c ≠ 9 → c ≠ 13 →
      getErrorDisplayChar c = wstr (toString c)) ∧
    (32 ≤ c → c ≤ 126 → getErrorDisplayChar c ≠ [c]) := by
  refine ⟨by decide, by decide, by decide, by decide, ?_, ?_⟩
  · intro h1 h2 h3 h4
    simp [getErrorDisplayChar, h1, h2, h3, h4]
  · intro h1 h2
    have hb : ∀ n : Nat, n < 95 →
        getErrorDisplayChar (32 + (n : Int)) ≠ [32 + (n : Int)] := by decide
    have hc : c = 32 + (((c - 32).toNat : Nat) : Int) := by omega
    rw [hc]
    exact hb (c - 32).toNat (by omega)

/-- C9 witness: the escape for newline, and the decimal rendering of
the printable character "a" (code 97), which does not appear literally. -/
theorem errorDisplay_rendering_witness :
    getErrorDisplayChar 97 = wstr "97" ∧ getErrorDisplayChar 97 ≠ [97] := by
  have h := errorDisplay_rendering 97
  constructor
  · have := h.2.2.2.2.1 (by decide) (by decide) (by decide) (by decide)
    simpa using this
  · exact h.2.2.2.2.2 (by decide) (by decide)

/-- C10: `getText()` returns the stored override only when it is
non-empty; an empty override set through `setText` behaves exactly like
no override at all, so the engine-computed span is returned and an
empty override is never the value `getText()` reports from the
override field. -/
theorem setText_empty_indistinguishable (st : LexerState) (v : List Int) :
    getText (setText st v) = (if v = [] then interpGetText st else v) ∧
    (st.text = [] → getText st = interpGetText st) := by
  constructor
  · by_cases h : v = [] <;> simp [getText, setText, interpGetText, h]
  · intro h
    simp [getText, h]

/-- C10 witness: an empty override over "ab" yields the engine span
(the one character "a"), a non-empty override is returned verbatim. -/
theorem setText_empty_indistinguishable_witness :
    getText (setText stSpan []) = [97] ∧
    getText (setText stSpan [120]) = [120] := by
  constructor
  · have h := (setText_empty_indistinguishable stSpan []).1
    simp only [if_pos rfl] at h
    rw [h]
    rfl
  · have h := (setText_empty_indistinguishable stSpan [120]).1
    simpa using h

theorem eofTok_postEOF (st : LexerState) : eofTok (postEOF st) = eofTok st := by
  cases hm : st.token <;> simp [eofTok, postEOF, hm, Token.mk.injEq]

/-- One `nextToken()` call on a latched-EOF state returns the EOF token
and only installs it as current (plus one mark/release), for any engine
and any positive fuel. -/
theorem nextToken_hitEOF (m : Matcher) (fuel : Nat) (st : LexerState)
    (cs : List Int) (h1 : st.input = some cs) (h2 : st.hitEOF = true) :
    nextToken m (fuel+1) st = some (.ok (eofTok st), postEOF st) := by
  have hst : st = { st with input := some cs, hitEOF := true } := by
    cases st
    simp_all
  rw [hst]
  rfl

theorem postEOF_iter_invariants (st : LexerState) (cs : List Int)
    (h1 : st.input = some cs) (h2 : st.hitEOF = true) (n : Nat) :
    (postEOF^[n] st).input = some cs ∧ (postEOF^[n] st).hitEOF = true ∧
    eofTok (postEOF^[n] st) = eofTok st := by
  induction n with
  | zero => exact ⟨h1, h2, rfl⟩
  | succ k ih =>
    rw [Function.iterate_succ_apply']
    exact ⟨ih.1, ih.2.1, by rw [eofTok_postEOF, ih.2.2]⟩

/-- C3: once the end-of-input latch is set, the `n`-th subsequent
`nextToken()` call — for every engine `m` and every positive fuel, so
the recognition engine is never consulted — immediately returns the
end-of-input token, and the returned token is the same `eofTok st` for
every `n`, so all repeated calls return equal end-of-input tokens. -/
theorem nextToken_after_eof_idempotent (st : LexerState) (cs : List Int)
    (h1 : st.input = some cs) (h2 : st.hitEOF = true) :
    ∀ (n : Nat) (m : Matcher) (fuel : Nat),
      nextToken m (fuel+1) (postEOF^[n] st) =
        some (.ok (eofTok st), postEOF^[n+1] st) := by
  intro n m fuel
  obtain ⟨ha, hb, hc⟩ := postEOF_iter_invariants st cs h1 h2 n
  have h := nextToken_hitEOF m fuel (postEOF^[n] st) cs ha hb
  rw [hc] at h
  rw [h, Function.iterate_succ_apply']

/-- C3 witness: two successive post-EOF calls on a latched state over
"ab" (previous token spanning columns 4-6) both return the EOF token
with column 7, under two different engines. -/
theorem nextToken_after_eof_idempotent_witness :
    nextToken mNorm 1 stLatched = some (.ok (eofTok stLatched), postEOF stLatched) ∧
    nextToken mFail 1 (postEOF stLatched) =
      some (.ok (eofTok stLatched), postEOF (postEOF stLatched)) ∧
    (eofTok stLatched).col = 7 ∧ (eofTok stLatched).ttype = EOFv := by
  refine ⟨?_, ?_, by decide, by decide⟩
  · exact nextToken_after_eof_idempotent stLatched [97, 98] rfl rfl 0 mNorm 0
  · exact nextToken_after_eof_idempotent stLatched [97, 98] rfl rfl 1 mFail 0

theorem nextTokens_length (m : Matcher) (fc : Nat) :
    ∀ n st l st', nextTokens m fc n st = some (l, st') → l.length = n := by
  intro n
  induction n with
  | zero =>
    intro st l st' h
    simp only [nextTokens] at h
    cases h
    rfl
  | succ k ih =>
    intro st l st' h
    simp only [nextTokens] at h
    split at h
    · split at h
      · cases h
        rename_i heq
        simp [ih _ _ _ heq]
      · cases h
    · cases h

theorem nextTokens_succ_eq (m : Matcher) (fc n : Nat) (st : LexerState)
    (l : List Token) (st' : LexerState)
    (h : nextTokens m fc (n+1) st = some (l, st')) :
    ∃ t st1 l1, nextToken m fc st = some (.ok t, st1) ∧
      nextTokens m fc n st1 = some (l1, st') ∧ l = t :: l1 := by
  simp only [nextTokens] at h
  split at h
  · split at h
    · rename_i x1 t st1 heq0 x2 l1 st2 heq1
      cases h
      exact ⟨t, st1, l1, heq0, heq1, rfl⟩
    · cases h
  · cases h

theorem getAllTokens_succ_ok (m : Matcher) (fc n : Nat) (st : LexerState)
    (t : Token) (st1 : LexerState)
    (h : nextToken m fc st = some (.ok t, st1)) :
    getAllTokens m fc (n+1) st =
      (if t.ttype = EOFv then some (.ok [], st1)
       else
        match getAllTokens m fc n st1 with
        | none => none
        | some (.error e, st2) => some (.error e, st2)
        | some (.ok ts, st2) => some (.ok (t :: ts), st2)) := by
  simp only [getAllTokens, h]

/-- C8: if `n+1` successive `nextToken()` calls succeed, the first `n`
producing non-EOF tokens `ts` and the last one the first EOF-typed
token, then `getAllTokens()` terminates with exactly those `n+1` calls
and returns `ts` — the production-ordered sequence up to but excluding
the first end-of-input token — whose length is the number of calls made
before EOF was first returned. -/
theorem getAllTokens_collects (m : Matcher) (fc : Nat) :
    ∀ (n : Nat) (st st' : LexerState) (ts : List Token) (tl : Token),
      nextTokens m fc (n+1) st = some (ts ++ [tl], st') →
      (∀ t ∈ ts, t.ttype ≠ EOFv) →
      tl.ttype = EOFv →
      getAllTokens m fc (n+1) st = some (.ok ts, st') ∧ ts.length = n := by
  intro n
  induction n with
  | zero =>
    intro st st' ts tl h1 h2 h3
    have hlen := nextTokens_length m fc 1 st _ _ h1
    have hts : ts = [] := by
      cases ts with
      | nil => rfl
      | cons a l => simp at hlen
    subst hts
    obtain ⟨t, st1, l1, heq0, heq1, hl⟩ := nextTokens_succ_eq m fc 0 st _ st' h1
    simp only [nextTokens] at heq1
    injection heq1 with hq
    injection hq with hq1 hq2
    subst hq1
    subst hq2
    simp only [List.nil_append] at hl
    injection hl with hla hlb
    subst hla
    rw [getAllTokens_succ_ok m fc 0 st _ _ heq0, if_pos h3]
    exact ⟨rfl, rfl⟩
  | succ k ih =>
    intro st st' ts tl h1 h2 h3
    obtain ⟨t, st1, l1, heq0, heq1, hl⟩ := nextTokens_succ_eq m fc (k+1) st _ st' h1
    cases ts with
    | nil =>
      have hlen1 := nextTokens_length m fc (k+1) st1 _ _ heq1
      simp only [List.nil_append] at hl
      injection hl with hla hlb
      subst hlb
      simp at hlen1
    | cons a ts1 =>
      simp only [List.cons_append] at hl
      injection hl with hta htl
      subst hta
      subst htl
      have hih := ih st1 st' ts1 tl heq1
        (fun u hu => h2 u (List.mem_cons_of_mem a hu)) h3
      have hane : a.ttype ≠ EOFv := h2 a (List.mem_cons_self a ts1)
      rw [getAllTokens_succ_ok m fc (k+1) st _ _ heq0, if_neg hane, hih.1]
      exact ⟨rfl, by simp [hih.2]⟩

/-- C8 witness: over "ab" with the one-character engine, three calls
produce `tokA`, `tokB` and then the EOF token; `getAllTokens` returns
`[tokA, tokB]`, of length 2 — the number of calls before EOF. -/
theorem getAllTokens_collects_witness :
    ∃ st', getAllTokens mNorm 6 3 stW = some (.ok [tokA, tokB], st') ∧
      ([tokA, tokB] : List Token).length = 2 := by
  have h := getAllTokens_collects mNorm 6 2 stW _ [tokA, tokB] tokEofW rfl
    (by decide) rfl
  exact ⟨_, h.1, rfl⟩

end AntlrLexer
